/-
  Verification of the speech-assessment scoring engine
  (src/scoring of the AI_Oral_Assistant repository).

  Shallow embedding conventions:
  * Python floats are modelled as rationals (ℚ); `round(x, 2)` is modelled
    as ⌊100·x + 1/2⌋ / 100 (the deviation from banker's rounding matters
    only at exact half-cent ties, which no claim touches).
  * Python `Dict[str, float]` feature vectors are association lists
    `List (String × ℚ)`; `d.get(k, default)` is `(l.lookup k).getD default`.
  * External libraries (librosa, numpy's log10, wordfreq, the websocket
    transport) are not repository code; where a claim needs them they are
    oracle parameters of the embedded function.
-/
import Mathlib

set_option maxRecDepth 4000

namespace OralAssistant

/-- Python `round(x, 2)`: rounding to two decimals (ties modelled upward). -/
def round2 (x : ℚ) : ℚ := (⌊x * 100 + 1/2⌋ : ℚ) / 100

/-! ### src/scoring/config.py -/

/-- `SCORE_CONFIG["max_score"]`. -/
def max_score : ℚ := 4

/-- `SCORE_CONFIG["min_score"]`. -/
def min_score : ℚ := 0

/-- `SCORE_CONFIG["delivery_weight"]`. -/
def delivery_weight : ℚ := 1/2

/-- `SCORE_CONFIG["language_weight"]`. -/
def language_weight : ℚ := 1/2

/-- `DELIVERY_WEIGHTS` from src/scoring/config.py, in source order. -/
def DELIVERY_WEIGHTS : List (String × ℚ) :=
  [("stretimemean", 15/100), ("wpsecutt", 15/100), ("wdpchk", 13/100),
   ("wdpchkmeandev", 13/100), ("conftimeavg", 12/100), ("repfreq", 8/100),
   ("silpwd", 6/100), ("ipc", 6/100), ("stresyllmdev", 5/100),
   ("L6", 3/100), ("longpfreq", 3/100), ("dpsec", 1/100)]

/-- `LANGUAGE_WEIGHTS` from src/scoring/config.py, in source order. -/
def LANGUAGE_WEIGHTS : List (String × ℚ) :=
  [("types", 35/100), ("poscvamax", 18/100), ("logfreq", 15/100),
   ("lmscore", 11/100), ("tpsec", 11/100), ("cvamax", 10/100)]

/-- `SCORING_WEIGHTS["local_algorithm"]`. -/
def local_algorithm_weight : ℚ := 4/10

/-- `SCORING_WEIGHTS["large_model"]`. -/
def large_model_weight : ℚ := 6/10

/-! ### src/scoring/score_calculator.py -/

/-- `ScoreCalculator.calculate_final_score`: weighted sum of the two unit
scores, scaled to 0–4, clamped to `[min_score, max_score]`, rounded to two
decimals. -/
def calculate_final_score (delivery_score language_score : ℚ) : ℚ :=
  let combined_score := delivery_score * delivery_weight +
                        language_score * language_weight
  let final_score := combined_score * max_score
  let final_score := max min_score (min max_score final_score)
  round2 final_score

/-- The dictionary returned by `ScoreCalculator.get_score_breakdown`. -/
structure Breakdown where
  final_score : ℚ
  delivery_score : ℚ
  language_score : ℚ
  delivery_features : List (String × ℚ)
  language_features : List (String × ℚ)
  maxScore : ℚ
  deriving Repr, DecidableEq

/-- `ScoreCalculator.get_score_breakdown`: the sub-scores are scaled to 0–4
by `round(· * 4, 2)` without any clamping. -/
def get_score_breakdown (delivery_score language_score : ℚ)
    (delivery_features language_features : List (String × ℚ)) : Breakdown :=
  { final_score := calculate_final_score delivery_score language_score
    delivery_score := round2 (delivery_score * 4)
    language_score := round2 (language_score * 4)
    delivery_features := delivery_features
    language_features := language_features
    maxScore := max_score }

/-! ### Normalization (src/scoring/delivery_scorer.py, language_scorer.py) -/

/-- The `max_values` table inside `DeliveryScorer.normalize_features`. -/
def delivery_max_values : List (String × ℚ) :=
  [("wpsecutt", 4), ("wdpchk", 20), ("wdpchkmeandev", 10), ("conftimeavg", 1),
   ("repfreq", 2/10), ("silpwd", 10), ("ipc", 3/10), ("stretimemean", 2),
   ("stresyllmdev", 1), ("L6", 1), ("longpfreq", 5), ("dpsec", 2)]

/-- The `max_values` table inside `LanguageScorer.normalize_features`. -/
def language_max_values : List (String × ℚ) :=
  [("types", 8), ("tpsec", 2), ("poscvamax", 1), ("logfreq", 1),
   ("lmscore", 1), ("cvamax", 1)]

/-- One entry of `normalize_features`: `min(value / max_val, 1.0)` when the
per-key ceiling is positive, else `0.0`. -/
def normalize_value (max_values : List (String × ℚ)) (key : String) (v : ℚ) : ℚ :=
  let max_val := (max_values.lookup key).getD 1
  if 0 < max_val then min (v / max_val) 1 else 0

/-- `DeliveryScorer.normalize_features`. -/
def delivery_normalize_features (features : List (String × ℚ)) : List (String × ℚ) :=
  features.map (fun p => (p.1, normalize_value delivery_max_values p.1 p.2))

/-- `LanguageScorer.normalize_features`. -/
def language_normalize_features (features : List (String × ℚ)) : List (String × ℚ) :=
  features.map (fun p => (p.1, normalize_value language_max_values p.1 p.2))

/-- The "lower = better" delivery keys inverted in
`DeliveryScorer.calculate_delivery_score`. -/
def lower_better_keys : List String :=
  ["repfreq", "silpwd", "ipc", "longpfreq", "dpsec", "wdpchkmeandev", "stresyllmdev"]

/-- `DeliveryScorer.calculate_delivery_score`: weighted sum over
`DELIVERY_WEIGHTS`, inverting the "lower = better" features. -/
def calculate_delivery_score (features : List (String × ℚ)) : ℚ :=
  (DELIVERY_WEIGHTS.map (fun p =>
    let feature_value := (features.lookup p.1).getD 0
    let feature_value := if p.1 ∈ lower_better_keys then 1 - feature_value
                         else feature_value
    feature_value * p.2)).sum

/-- `LanguageScorer.calculate_language_score`: weighted sum over
`LANGUAGE_WEIGHTS`. -/
def calculate_language_score (features : List (String × ℚ)) : ℚ :=
  (LANGUAGE_WEIGHTS.map (fun p => (features.lookup p.1).getD 0 * p.2)).sum

/-! ### src/scoring/audio_analyzer.py

The analyzer is parameterized by its sample rate (the constructor argument;
the configured default is 16000).  Audio is a list of rational samples. -/

/-- `AUDIO_CONFIG["vad_frame_duration"]` = 0.03 s; the frame length in
samples is `int(sample_rate * 0.03)`. -/
def vad_frame_length (sample_rate : ℕ) : ℕ := sample_rate * 3 / 100

/-- `AUDIO_CONFIG["short_pause_threshold"]`. -/
def short_pause_threshold : ℚ := 15/100

/-- `AUDIO_CONFIG["long_pause_threshold"]`. -/
def long_pause_threshold : ℚ := 1/2

/-- `AUDIO_CONFIG["min_speech_duration"]`. -/
def min_speech_duration : ℚ := 1/10

/-- `np.mean` of a list of rationals (empty list gives 0, as 0/0 = 0 in ℚ;
every frame the analyzer averages is nonempty). -/
def listMean (xs : List ℚ) : ℚ := xs.sum / xs.length

/-- The short-time-energy loop of `detect_speech_segments`:
`for i in range(0, len(audio) - frame_length, hop_length)` collect
`np.mean(audio[i:i+frame_length] ** 2)`.  A zero hop (sample rates below 67)
would raise in Python; the embedding returns no frames there and every
theorem quantifying over sample rates assumes a positive hop. -/
def frame_energies (sample_rate : ℕ) (audio : List ℚ) : List ℚ :=
  let frame_length := vad_frame_length sample_rate
  let hop_length := frame_length / 2
  if hop_length = 0 then [] else
    let stop := audio.length - frame_length
    (List.range ((stop + hop_length - 1) / hop_length)).map (fun k =>
      listMean (((audio.drop (k * hop_length)).take frame_length).map (fun x => x * x)))

/-- The state threaded through the VAD loop: `(in_speech, start_time,
speech_segments)`. -/
def vadStep (threshold : ℚ) (hop_length sample_rate : ℕ)
    (st : Bool × ℚ × List (ℚ × ℚ)) (p : ℕ × ℚ) : Bool × ℚ × List (ℚ × ℚ) :=
  let time : ℚ := (p.1 : ℚ) * hop_length / sample_rate
  match st with
  | (in_speech, start_time, segs) =>
    if p.2 > threshold ∧ ¬in_speech then (true, time, segs)
    else if p.2 ≤ threshold ∧ in_speech then
      (false, start_time,
        if min_speech_duration ≤ time - start_time then segs ++ [(start_time, time)]
        else segs)
    else st

/-- `AudioAnalyzer.detect_speech_segments`: adaptive-threshold VAD over the
short-time energies; a final in-progress segment is closed at the signal
end, subject to the same minimum-duration rule. -/
def detect_speech_segments (sample_rate : ℕ) (audio : List ℚ) : List (ℚ × ℚ) :=
  let energy := frame_energies sample_rate audio
  if energy = [] then [] else
  let threshold := listMean energy * (1/10)
  let hop_length := vad_frame_length sample_rate / 2
  match energy.enum.foldl (vadStep threshold hop_length sample_rate) (false, 0, []) with
  | (in_speech, start_time, segs) =>
    if in_speech then
      let end_time : ℚ := (audio.length : ℚ) / sample_rate
      if min_speech_duration ≤ end_time - start_time then segs ++ [(start_time, end_time)]
      else segs
    else segs

/-- The silence-gap accumulation loop of `detect_silences`: walk the
segments keeping `(silences, prev_end)`, appending `start - prev_end`
whenever `start > prev_end`. -/
def silenceStep (acc : List ℚ × ℚ) (seg : ℚ × ℚ) : List ℚ × ℚ :=
  (if seg.1 > acc.2 then acc.1 ++ [seg.1 - acc.2] else acc.1, seg.2)

/-- `AudioAnalyzer.detect_silences`: derives the gaps around the detected
speech segments and classifies them into `(short_pauses, long_pauses)`;
with no detected segment it returns `([], [])`. -/
def detect_silences (sample_rate : ℕ) (audio : List ℚ) : List ℚ × List ℚ :=
  let speech_segments := detect_speech_segments sample_rate audio
  let total_duration : ℚ := (audio.length : ℚ) / sample_rate
  if speech_segments = [] then ([], []) else
  let acc := speech_segments.foldl silenceStep ([], 0)
  let silences := if acc.2 < total_duration then acc.1 ++ [total_duration - acc.2]
                  else acc.1
  (silences.filter (fun s => short_pause_threshold ≤ s ∧ s < long_pause_threshold),
   silences.filter (fun s => long_pause_threshold ≤ s))

/-! ### src/scoring/language_scorer.py

Text is a list of characters.  The embedding models the module in the
configuration the repository code itself provides when the optional
third-party NLP models are absent (`SPACY_AVAILABLE = False`): the
in-repository simplified paths.  The `wordfreq` corpus lookup and numpy's
`log10` are external libraries and appear as oracle parameters. -/

/-- Python `str.split()`: split on runs of whitespace, no empty words. -/
def splitWsAux : List Char → List Char → List (List Char)
  | [], cur => if cur = [] then [] else [cur.reverse]
  | c :: rest, cur =>
    if c.isWhitespace then
      if cur = [] then splitWsAux rest [] else cur.reverse :: splitWsAux rest []
    else splitWsAux rest (c :: cur)

/-- Python `text.split()` on a character-list text. -/
def splitWs (text : List Char) : List (List Char) := splitWsAux text []

/-- Python `word.strip(".,!?;:")`. -/
def strip_punct (w : List Char) : List Char :=
  let punct : List Char := ['.', ',', '!', '?', ';', ':']
  ((w.dropWhile (· ∈ punct)).reverse.dropWhile (· ∈ punct)).reverse

/-- `LanguageScorer._calculate_lm_score`: heuristic grammaticality score.
Empty text gives 0.0; fewer than three words give 0.3; otherwise 0.5 plus
bonuses for terminal punctuation, connectives, adjectives and adverbs
(substring tests on the lowercased text, as in the source), capped at 1. -/
def calculate_lm_score (text : List Char) : ℚ :=
  if text = [] then 0
  else if (splitWs text).length < 3 then 3/10
  else
    let text_lower := text.map Char.toLower
    let score : ℚ := 1/2
    let score := if '.' ∈ text ∨ '!' ∈ text ∨ '?' ∈ text then score + 2/10 else score
    let conjunctions := ["and", "or", "but", "because", "if", "when", "although"]
    let score := if conjunctions.any (fun c => decide (c.toList <:+: text_lower)) then
                   score + 15/100 else score
    let common_adjectives := ["good", "bad", "important", "different", "difficult", "easy"]
    let score := if common_adjectives.any (fun c => decide (c.toList <:+: text_lower)) then
                   score + 1/10 else score
    let common_adverbs := ["very", "really", "quite", "also", "well"]
    let score := if common_adverbs.any (fun c => decide (c.toList <:+: text_lower)) then
                   score + 5/100 else score
    min score 1

/-- The first matching word class of `_calculate_word_types_simple`'s
if/elif chain, for one cleaned word. -/
def word_type_tag (word_clean : List Char) : Option String :=
  let common_nouns := ["person", "thing", "place", "time", "way", "day", "man", "woman"]
  let common_verbs := ["is", "are", "was", "were", "have", "has", "do", "does", "go", "get"]
  let common_adjectives := ["good", "bad", "big", "small", "important", "different"]
  let common_adverbs := ["very", "really", "quite", "too", "also", "well"]
  let common_conjunctions := ["and", "or", "but", "because", "if", "when"]
  let common_determiners := ["the", "a", "an", "this", "that", "these", "those"]
  let common_prepositions := ["in", "on", "at", "for", "with", "from", "to"]
  let common_pronouns := ["i", "you", "he", "she", "it", "we", "they"]
  let isIn := fun (l : List String) => l.any (fun s => s.toList = word_clean)
  if isIn common_nouns then some "noun"
  else if isIn common_verbs then some "verb"
  else if isIn common_adjectives then some "adjective"
  else if isIn common_adverbs then some "adverb"
  else if isIn common_conjunctions then some "conjunction"
  else if isIn common_determiners then some "determiner"
  else if isIn common_prepositions then some "preposition"
  else if isIn common_pronouns then some "pronoun"
  else none

/-- `LanguageScorer._calculate_word_types_simple`: the number of distinct
word classes found among the lowercased, punctuation-stripped words,
floored at 3. -/
def calculate_word_types_simple (text : List Char) : ℚ :=
  let words := splitWs (text.map Char.toLower)
  let types_found := ((words.map (fun w => word_type_tag (strip_punct w))).filterMap id).dedup
  (max types_found.length 3 : ℕ)

/-- `LanguageScorer._calculate_log_frequency` on the `wordfreq`-available
path: mean of `log10(freq + 1e-10)` over the cleaned words with positive
corpus frequency (0.0 if none).  `word_frequency` and `log10` are the
external `wordfreq.word_frequency(·, 'en')` and `np.log10` oracles. -/
def calculate_log_frequency (word_frequency : List Char → ℚ) (log10 : ℚ → ℚ)
    (words : List (List Char)) : ℚ :=
  let frequencies := words.filterMap (fun w =>
    let word_clean := strip_punct (w.map Char.toLower)
    if word_clean ≠ [] then
      let freq := word_frequency word_clean
      if freq > 0 then some (log10 (freq + 1/10^10)) else none
    else none)
  if frequencies ≠ [] then listMean frequencies else 0

/-- `_calculate_log_frequency` including the `WORDFREQ_AVAILABLE = False`
fallback, which returns the constant 0.5. -/
def language_log_frequency (wordfreq : Option (List Char → ℚ)) (log10 : ℚ → ℚ)
    (words : List (List Char)) : ℚ :=
  match wordfreq with
  | some wf => calculate_log_frequency wf log10 words
  | none => 1/2

/-- `TEXT_CONFIG` target word counts. -/
def target_word_count (task_type : String) : ℕ :=
  if task_type = "independent" then 130 else 170

/-- `LanguageScorer._calculate_word_count_score`: tiered closeness of the
word count to the task target. -/
def calculate_word_count_score (word_count target_count : ℕ) : ℚ :=
  if target_count = 0 then 0
  else
    let ratio : ℚ := (word_count : ℚ) / target_count
    if 8/10 ≤ ratio ∧ ratio ≤ 12/10 then 1
    else if (6/10 ≤ ratio ∧ ratio < 8/10) ∨ (12/10 < ratio ∧ ratio ≤ 15/10) then 7/10
    else if (4/10 ≤ ratio ∧ ratio < 6/10) ∨ (15/10 < ratio ∧ ratio ≤ 2) then 4/10
    else 2/10

/-- `LanguageScorer.calculate_all_features`: the 6-entry language feature
vector, in the source's insertion order; an empty transcript yields the
all-zero vector keyed by the weight table.  The POS-bigram feature is the
simplified path's constant 0.5 (`_calculate_pos_bigram_score` without
spaCy). -/
def language_all_features (wordfreq : Option (List Char → ℚ)) (log10 : ℚ → ℚ)
    (text : List Char) (audio_duration : ℚ) (task_type : String) :
    List (String × ℚ) :=
  let words := splitWs text
  let word_count := words.length
  if word_count = 0 then LANGUAGE_WEIGHTS.map (fun p => (p.1, 0)) else
  let types := calculate_word_types_simple text
  let tpsec := if audio_duration > 0 then types / audio_duration else 0
  let poscvamax : ℚ := 1/2
  let logfreq := language_log_frequency wordfreq log10 words
  let lmscore := calculate_lm_score text
  let cvamax := calculate_word_count_score word_count (target_word_count task_type)
  [("types", types), ("tpsec", tpsec), ("poscvamax", poscvamax),
   ("logfreq", logfreq), ("lmscore", lmscore), ("cvamax", cvamax)]

/-! ### src/scoring/xunfei_rater.py -/

/-- The score fields `XunfeiRater.on_message` can leave in `self.result`
(the raw XML payload itself is elided).  A missing dictionary key is
`none`. -/
structure XunfeiResult where
  total_score : Option ℚ
  converted_score : Option ℚ
  accuracy_score : Option ℚ
  fluency_score : Option ℚ
  integrity_score : Option ℚ
  standard_score : Option ℚ
  deriving Repr, DecidableEq

/-- The result dictionary `on_message` builds when the final XML carries a
node with a `total_score` attribute (lines 162–172): `total_score` and
`converted_score = total/5*4` are always set together; the per-dimension
scores are copied when the XML provides them. -/
def mkXunfeiResult (score_val : ℚ)
    (accuracy fluency integrity standard : Option ℚ) : XunfeiResult :=
  { total_score := some score_val
    converted_score := some (score_val / 5 * 4)
    accuracy_score := accuracy
    fluency_score := fluency
    integrity_score := integrity
    standard_score := standard }

/-- The tail of `XunfeiRater.score` (lines 98–102): any recorded error —
transport failure (`on_error`), non-zero protocol code, or an explicit
server rejection, all of which set `self.error_msg` — makes `score`
return `None`; otherwise whatever result the message handler stored is
returned. -/
def xunfei_rater_score (error_msg : Option String)
    (result : Option XunfeiResult) : Option XunfeiResult :=
  if error_msg.isSome then none else result

/-! ### src/scoring/speech_rater.py -/

/-- `ScoreResult` (the two feedback strings, produced by the external
feedback renderer, are elided). -/
structure ScoreResult where
  raw_score : ℚ
  delivery_score : ℚ
  language_score : ℚ
  delivery_features : List (String × ℚ)
  language_features : List (String × ℚ)
  deriving Repr, DecidableEq

/-- The local-only pipeline of `SpeechRater.score` (steps 1–3): normalize
the raw feature vectors, weight them into the two unit scores, and combine
them with `ScoreCalculator.calculate_final_score`.  The raw delivery
features are a parameter because `DeliveryScorer.calculate_all_features`
consumes the waveform through the external `librosa` loader. -/
def local_final_score (delivery_features_raw : List (String × ℚ))
    (wordfreq : Option (List Char → ℚ)) (log10 : ℚ → ℚ)
    (text : List Char) (audio_duration : ℚ) (task_type : String) : ℚ :=
  calculate_final_score
    (calculate_delivery_score (delivery_normalize_features delivery_features_raw))
    (calculate_language_score (language_normalize_features
      (language_all_features wordfreq log10 text audio_duration task_type)))

/-- `SpeechRater.score` (steps 1–5): local scoring, optional fusion with a
Xunfei result carrying a `total_score`, and construction of both the
breakdown dictionary and the returned `ScoreResult`. -/
def speech_rater_score (delivery_features_raw : List (String × ℚ))
    (wordfreq : Option (List Char → ℚ)) (log10 : ℚ → ℚ)
    (text : List Char) (audio_duration : ℚ) (task_type : String)
    (xunfei_result : Option XunfeiResult) : ScoreResult × Breakdown :=
  let delivery_features_norm := delivery_normalize_features delivery_features_raw
  let delivery_score := calculate_delivery_score delivery_features_norm
  let language_features_raw :=
    language_all_features wordfreq log10 text audio_duration task_type
  let language_features_norm := language_normalize_features language_features_raw
  let language_score := calculate_language_score language_features_norm
  let local_score := calculate_final_score delivery_score language_score
  let fused : ℚ × ℚ × ℚ :=
    match xunfei_result with
    | some xr =>
      match xr.total_score with
      | some t =>
        let xunfei_score := xr.converted_score.getD (t / 5 * 4)
        let d := match xr.fluency_score with
          | some f => delivery_score * local_algorithm_weight +
                      f / 5 * large_model_weight
          | none => delivery_score
        let l := match xr.accuracy_score with
          | some a => language_score * local_algorithm_weight +
                      a / 5 * large_model_weight
          | none => language_score
        (local_score * local_algorithm_weight + xunfei_score * large_model_weight,
         d, l)
      | none => (local_score, delivery_score, language_score)
    | none => (local_score, delivery_score, language_score)
  let breakdown := get_score_breakdown fused.2.1 fused.2.2
    delivery_features_raw language_features_raw
  ({ raw_score := fused.1
     delivery_score := fused.2.1 * 4
     language_score := fused.2.2 * 4
     delivery_features := delivery_features_raw
     language_features := language_features_raw }, breakdown)

/-! ### The audio frame sender (`XunfeiRater.on_open`) -/

/-- One message sent by the `on_open` worker; `status` is the
`data.status` stream-status field (0 first frame, 1 continue, 2 last) and
`data` the raw chunk carried (base64 encoding elided). -/
structure Frame where
  status : ℕ
  data : List ℕ
  deriving Repr, DecidableEq

/-- `frameSize = 1280` bytes per read. -/
def frameSize : ℕ := 1280

/-- The send loop of `on_open`.  In the source, `buf = fp.read(frameSize)`
is empty exactly when the remaining input is empty; the loop's status
variable is `STATUS_FIRST_FRAME` only before the first send and
`STATUS_CONTINUE_FRAME` afterwards, and `STATUS_LAST_FRAME` is entered
exactly on an empty read, sends the terminal message (with the empty
chunk), and breaks. -/
def send_frames (data : List ℕ) (status : ℕ) : List Frame :=
  if h : data = [] then [{ status := 2, data := [] }]
  else if status = 0 then
    { status := 0, data := data.take frameSize } :: send_frames (data.drop frameSize) 1
  else
    { status := 1, data := data.take frameSize } :: send_frames (data.drop frameSize) 1
termination_by data.length
decreasing_by
  all_goals
    simp only [List.length_drop]
    exact Nat.sub_lt (List.length_pos.mpr h) (by norm_num [frameSize])

/-- The whole `on_open` sender: a `.wav` source has its fixed 44-byte
header stripped before framing begins. -/
def on_open_frames (is_wav : Bool) (file : List ℕ) : List Frame :=
  send_frames (if is_wav then file.drop 44 else file) 0

/-! ### Spec-side definitions (for refinement comparisons)

These two definitions follow the specification's words, to be compared
with the embedded source functions above. -/

/-- Spec-side pause derivation: the gap before the first segment, the gaps
between consecutive segments (`gaps_between 0 segs`), and the gap after
the last segment. -/
def gaps_between : ℚ → List (ℚ × ℚ) → List ℚ
  | _, [] => []
  | prev, (s, e) :: rest => (s - prev) :: gaps_between e rest

/-- End time of the last segment (0 with no segment). -/
def last_end : ℚ → List (ℚ × ℚ) → ℚ
  | prev, [] => prev
  | _, (_, e) :: rest => last_end e rest

/-- Spec-side pause-duration list for a nonempty segmentation: pre-first
gap, inter-segment gaps, post-last gap. -/
def spec_pause_gaps (segs : List (ℚ × ℚ)) (total : ℚ) : List ℚ :=
  gaps_between 0 segs ++ [total - last_end 0 segs]

/-- Spec-side `lmscore` formula: "base of 0.5, +0.2 if terminal punctuation
present, +0.15 if any connective present, +0.1 if any adjective present,
+0.05 if any adverb present, clamped to at most 1.0" — for every
transcript, with no short-text special cases. -/
def lm_score_spec (text : List Char) : ℚ :=
  let text_lower := text.map Char.toLower
  let conjunctions := ["and", "or", "but", "because", "if", "when", "although"]
  let common_adjectives := ["good", "bad", "important", "different", "difficult", "easy"]
  let common_adverbs := ["very", "really", "quite", "also", "well"]
  min (1/2
    + (if '.' ∈ text ∨ '!' ∈ text ∨ '?' ∈ text then 2/10 else 0)
    + (if conjunctions.any (fun c => decide (c.toList <:+: text_lower)) then 15/100 else 0)
    + (if common_adjectives.any (fun c => decide (c.toList <:+: text_lower)) then 1/10 else 0)
    + (if common_adverbs.any (fun c => decide (c.toList <:+: text_lower)) then 5/100 else 0)) 1

/-! ### Concrete inputs used by individual claims -/

/-- A `wordfreq.word_frequency` oracle assigning every word the corpus
frequency 99·10⁻¹⁰ = 10⁻⁸ − 10⁻¹⁰ (a legitimate value of the external
lookup: a rare word).  Then `freq + 1e-10 = 10⁻⁸` exactly. -/
def C1_wordfreq : List Char → ℚ := fun _ => 99/10000000000

/-- A `np.log10` oracle: with `C1_wordfreq` the pipeline evaluates it only
at `freq + 1e-10 = 10⁻⁸`, and `log10 (10⁻⁸) = −8` exactly, so the constant
−8 oracle agrees with `np.log10` at every evaluated point. -/
def C1_log10 : ℚ → ℚ := fun _ => -8

/-- Delivery feature vector with every "higher = better" key at its
normalization ceiling and every "lower = better" key at zero. -/
def C6_delivery_features : List (String × ℚ) :=
  [("stretimemean", 2), ("wpsecutt", 4), ("wdpchk", 20), ("wdpchkmeandev", 0),
   ("conftimeavg", 1), ("repfreq", 0), ("silpwd", 0), ("ipc", 0),
   ("stresyllmdev", 0), ("L6", 1), ("longpfreq", 0), ("dpsec", 0)]

/-- Language feature vector with every key at its normalization ceiling
(all language keys are "higher = better"). -/
def C6_language_features : List (String × ℚ) :=
  [("types", 8), ("tpsec", 2), ("poscvamax", 1), ("logfreq", 1),
   ("lmscore", 1), ("cvamax", 1)]

/-- Raw delivery features tuned so the local delivery unit score is
0.745 (baseline 0.42 from the zeroed "lower = better" keys, plus
0.12 + 0.03 + 0.15 + 0.025). -/
def C3_delivery_features : List (String × ℚ) :=
  [("conftimeavg", 1), ("L6", 1), ("wpsecutt", 4), ("stretimemean", 1/3)]

/-- A transcript exhibiting all eight simple word classes, terminal
punctuation, a connective, an adjective and an adverb. -/
def C3_text : List Char := "the man is good and very well . i go to it".toList

/-- A 1-second all-zero (silent) signal at a 100 Hz analyzer rate. -/
def C2_audio : List ℚ := List.replicate 100 0

/-- Half a second of full-scale signal followed by half a second of
silence, at a 100 Hz analyzer rate: one detected speech segment. -/
def C7_audio : List ℚ := List.replicate 50 1 ++ List.replicate 50 0

/-! ## Helper lemmas -/

/-- Rounding to two decimals preserves non-negativity. -/
theorem round2_nonneg {x : ℚ} (hx : 0 ≤ x) : 0 ≤ round2 x := by
  unfold round2
  have h0 : (0:ℤ) ≤ ⌊x * 100 + 1/2⌋ := Int.le_floor.mpr (by push_cast; linarith)
  exact div_nonneg (by exact_mod_cast h0) (by norm_num)

/-- Rounding to two decimals preserves the upper bound 4. -/
theorem round2_le_four {x : ℚ} (hx : x ≤ 4) : round2 x ≤ 4 := by
  unfold round2
  have h1 : ⌊x * 100 + 1/2⌋ < 401 := Int.floor_lt.mpr (by push_cast; linarith)
  have h2 : ((⌊x * 100 + 1/2⌋ : ℤ) : ℚ) ≤ 400 := by exact_mod_cast Int.lt_add_one_iff.mp h1
  rw [div_le_iff₀ (by norm_num : (0:ℚ) < 100)]
  linarith

/-- Every normalized feature value is at most 1. -/
theorem normalize_value_le_one (mv : List (String × ℚ)) (k : String) (v : ℚ) :
    normalize_value mv k v ≤ 1 := by
  simp only [normalize_value]
  split
  · exact min_le_right _ _
  · norm_num

/-- Normalizing a non-negative feature value gives a non-negative value. -/
theorem normalize_value_nonneg (mv : List (String × ℚ)) (k : String) {v : ℚ}
    (hv : 0 ≤ v) : 0 ≤ normalize_value mv k v := by
  simp only [normalize_value]
  split
  · next hpos => exact le_min (div_nonneg hv (le_of_lt hpos)) zero_le_one
  · exact le_refl 0

/-- For a key whose ceiling is 1, one more normalization pass is the
identity on the already-normalized value. -/
theorem normalize_value_idem (mv : List (String × ℚ)) (k : String) (v : ℚ)
    (hm : ((mv.lookup k).getD 1) = 1) :
    normalize_value mv k (normalize_value mv k v) = normalize_value mv k v := by
  simp only [normalize_value, hm]
  norm_num

/-! ## Claim C1 -/

/-- C1 (amended): the final score from `calculate_final_score` always lies
in [0, 4]; the breakdown's delivery and language scores lie in [0, 4]
whenever the corresponding unit scores lie in [0, 1] — but they are not
clamped, so a negative unit score (possible through a negative `logfreq`)
escapes the range. -/
theorem C1_score_ranges (ds ls : ℚ) (dfs lfs : List (String × ℚ)) :
    (0 ≤ calculate_final_score ds ls ∧ calculate_final_score ds ls ≤ 4) ∧
    (0 ≤ ds → ds ≤ 1 → 0 ≤ ls → ls ≤ 1 →
      0 ≤ (get_score_breakdown ds ls dfs lfs).delivery_score ∧
      (get_score_breakdown ds ls dfs lfs).delivery_score ≤ 4 ∧
      0 ≤ (get_score_breakdown ds ls dfs lfs).language_score ∧
      (get_score_breakdown ds ls dfs lfs).language_score ≤ 4) := by
  constructor
  · have hlo : (0:ℚ) ≤ max min_score (min max_score
        ((ds * delivery_weight + ls * language_weight) * max_score)) :=
      le_max_left _ _
    have hhi : max min_score (min max_score
        ((ds * delivery_weight + ls * language_weight) * max_score)) ≤ 4 := by
      apply max_le
      · norm_num [min_score]
      · calc min max_score ((ds * delivery_weight + ls * language_weight) * max_score)
            ≤ max_score := min_le_left _ _
          _ ≤ 4 := by norm_num [max_score]
    exact ⟨round2_nonneg hlo, round2_le_four hhi⟩
  · intro hd0 hd1 hl0 hl1
    refine ⟨round2_nonneg (by linarith), round2_le_four (by linarith),
            round2_nonneg (by linarith), round2_le_four (by linarith)⟩

/-- C1 witness: the in-range bounds instantiated at delivery = language =
1/2. -/
theorem C1_score_ranges_witness :
    (0 ≤ calculate_final_score (1/2) (1/2) ∧ calculate_final_score (1/2) (1/2) ≤ 4) ∧
    (0 ≤ (get_score_breakdown (1/2) (1/2) [] []).delivery_score ∧
     (get_score_breakdown (1/2) (1/2) [] []).delivery_score ≤ 4 ∧
     0 ≤ (get_score_breakdown (1/2) (1/2) [] []).language_score ∧
     (get_score_breakdown (1/2) (1/2) [] []).language_score ≤ 4) :=
  ⟨(C1_score_ranges (1/2) (1/2) [] []).1,
   (C1_score_ranges (1/2) (1/2) [] []).2 (by norm_num) (by norm_num)
     (by norm_num) (by norm_num)⟩

/-- C1 counterexample: a one-rare-word transcript (corpus frequency
99·10⁻¹⁰, so `logfreq = log10 10⁻⁸ = −8`) drives the unclamped breakdown
`language_score` (and the `ScoreResult` field) below 0, outside [0, 4]. -/
theorem C1_counterexample :
    (speech_rater_score [] (some C1_wordfreq) C1_log10 ("zyzzyvas".toList)
        10 "independent" none).2.language_score = -91/25 ∧
    (speech_rater_score [] (some C1_wordfreq) C1_log10 ("zyzzyvas".toList)
        10 "independent" none).2.language_score < 0 ∧
    (speech_rater_score [] (some C1_wordfreq) C1_log10 ("zyzzyvas".toList)
        10 "independent" none).1.language_score < 0 := by
  refine ⟨by with_unfolding_all decide, by with_unfolding_all decide,
          by with_unfolding_all decide⟩

/-! ## Claim C3 -/

/-- C3: whenever the remote result carries a `total_score`, the published
final score is `local_final × 0.4 + (total/5 × 4) × 0.6`; in particular
remote 4.0 (of 5) with local 3.0 gives exactly 3.12. -/
theorem C3_fusion_formula :
    (∀ (df : List (String × ℚ)) (wf : Option (List Char → ℚ)) (lg : ℚ → ℚ)
       (text : List Char) (dur : ℚ) (task : String) (v : ℚ)
       (acc fl intg std : Option ℚ),
      (speech_rater_score df wf lg text dur task
          (some (mkXunfeiResult v acc fl intg std))).1.raw_score =
        local_final_score df wf lg text dur task * (4/10) + (v / 5 * 4) * (6/10)) ∧
    local_final_score C3_delivery_features none (fun _ => 0) C3_text 4 "independent" = 3 ∧
    (speech_rater_score C3_delivery_features none (fun _ => 0) C3_text 4 "independent"
        (some (mkXunfeiResult 4 none none none none))).1.raw_score = 312/100 := by
  refine ⟨fun df wf lg text dur task v acc fl intg std => rfl,
          by with_unfolding_all decide, by with_unfolding_all decide⟩

/-! ## Claim C4 -/

/-- C4: when the remote evaluation records any error — transport failure or
explicit server rejection — `XunfeiRater.score` returns no result and
`SpeechRater.score` still returns a `ScoreResult` whose final score is the
local-only score, unchanged. -/
theorem C4_remote_failure_local_only (em : Option String) (res : Option XunfeiResult)
    (df : List (String × ℚ)) (wf : Option (List Char → ℚ)) (lg : ℚ → ℚ)
    (text : List Char) (dur : ℚ) (task : String) (h : em.isSome) :
    xunfei_rater_score em res = none ∧
    (speech_rater_score df wf lg text dur task (xunfei_rater_score em res)).1.raw_score =
      local_final_score df wf lg text dur task := by
  have hnone : xunfei_rater_score em res = none := by simp [xunfei_rater_score, h]
  exact ⟨hnone, by rw [hnone]; rfl⟩


/-- C4 witness: a recorded transport error with concrete local inputs. -/
theorem C4_remote_failure_witness :
    (Option.isSome (some "transport error") = true) ∧
    (xunfei_rater_score (some "transport error") none = none ∧
     (speech_rater_score [] none (fun _ => 0) [] 0 "independent"
        (xunfei_rater_score (some "transport error") none)).1.raw_score =
       local_final_score [] none (fun _ => 0) [] 0 "independent") :=
  ⟨rfl, C4_remote_failure_local_only (some "transport error") none [] none
    (fun _ => 0) [] 0 "independent" rfl⟩

/-! ## Claim C5 -/

/-- C5 (amended): normalized values lie in [0, 1] whenever the raw values
are non-negative (the clamp is one-sided, so negative raw values pass
through), and re-normalization is the identity exactly on vectors all of
whose keys have ceiling 1 — not on every already-normalized vector. -/
theorem C5_normalization_range (fs : List (String × ℚ))
    (hnn : ∀ p ∈ fs, 0 ≤ p.2) :
    (∀ p ∈ delivery_normalize_features fs, 0 ≤ p.2 ∧ p.2 ≤ 1) ∧
    (∀ p ∈ language_normalize_features fs, 0 ≤ p.2 ∧ p.2 ≤ 1) ∧
    ((∀ p ∈ fs, ((delivery_max_values.lookup p.1).getD 1) = 1) →
      delivery_normalize_features (delivery_normalize_features fs) =
        delivery_normalize_features fs) ∧
    ((∀ p ∈ fs, ((language_max_values.lookup p.1).getD 1) = 1) →
      language_normalize_features (language_normalize_features fs) =
        language_normalize_features fs) := by
  refine ⟨?_, ?_, ?_, ?_⟩
  · intro p hp
    obtain ⟨q, hq, rfl⟩ := List.mem_map.mp hp
    exact ⟨normalize_value_nonneg _ _ (hnn q hq), normalize_value_le_one _ _ _⟩
  · intro p hp
    obtain ⟨q, hq, rfl⟩ := List.mem_map.mp hp
    exact ⟨normalize_value_nonneg _ _ (hnn q hq), normalize_value_le_one _ _ _⟩
  · intro hm
    simp only [delivery_normalize_features, List.map_map]
    refine List.map_congr_left (fun p hp => ?_)
    simp only [Function.comp_apply]
    rw [normalize_value_idem _ _ _ (hm p hp)]
  · intro hm
    simp only [language_normalize_features, List.map_map]
    refine List.map_congr_left (fun p hp => ?_)
    simp only [Function.comp_apply]
    rw [normalize_value_idem _ _ _ (hm p hp)]

/-- C5 witness: a concrete ceiling-1 vector on which re-normalization is
the identity. -/
theorem C5_normalization_witness :
    language_normalize_features (language_normalize_features [("lmscore", 1/2)]) =
      language_normalize_features [("lmscore", 1/2)] :=
  (C5_normalization_range [("lmscore", 1/2)]
      (by intro p hp; simp at hp; subst hp; norm_num)).2.2.2
    (by intro p hp; simp at hp; subst hp; with_unfolding_all decide)

/-- C5 counterexample: a negative raw value (−3, as the mean log frequency
produces) is left negative by normalization, outside [0, 1]; and
re-normalizing the already-normalized vector `{repfreq: 0.5}` (obtained
from the raw value 0.1) changes it, so normalization is not idempotent. -/
theorem C5_counterexample :
    language_normalize_features [("logfreq", -3)] = [("logfreq", -3)] ∧
    ¬(0 ≤ (-3 : ℚ)) ∧
    delivery_normalize_features (delivery_normalize_features [("repfreq", 1/10)]) ≠
      delivery_normalize_features [("repfreq", 1/10)] := by
  refine ⟨by with_unfolding_all decide, by norm_num, by with_unfolding_all decide⟩

/-! ## Claim C6 -/

/-- C6: both weight tables sum to 1, and the all-ceiling ("higher =
better") / all-zero ("lower = better") feature vectors pass through
normalization, inversion, weighting and the local score computation to a
local final score of exactly 4.0. -/
theorem C6_max_ceiling_roundtrip :
    (DELIVERY_WEIGHTS.map Prod.snd).sum = 1 ∧
    (LANGUAGE_WEIGHTS.map Prod.snd).sum = 1 ∧
    calculate_delivery_score (delivery_normalize_features C6_delivery_features) = 1 ∧
    calculate_language_score (language_normalize_features C6_language_features) = 1 ∧
    calculate_final_score
      (calculate_delivery_score (delivery_normalize_features C6_delivery_features))
      (calculate_language_score (language_normalize_features C6_language_features)) = 4 := by
  refine ⟨?_, ?_, ?_, ?_, ?_⟩ <;> with_unfolding_all decide

/-! ## Claim C8 -/

/-- C8 (amended): for transcripts of at least three whitespace-separated
words, `_calculate_lm_score` equals the spec's formula (0.5 base plus the
four bonuses, clamped at 1); shorter transcripts take the special-case
branches instead. -/
theorem C8_lm_score_formula (text : List Char) (h : 3 ≤ (splitWs text).length) :
    calculate_lm_score text = lm_score_spec text := by
  have hne : text ≠ [] := by
    intro he
    rw [he] at h
    simp [splitWs, splitWsAux] at h
  simp only [calculate_lm_score, lm_score_spec, if_neg hne,
    if_neg (Nat.not_lt.mpr h)]
  split_ifs <;> norm_num

/-- C8 witness: a four-word transcript where both sides evaluate to 0.8. -/
theorem C8_lm_score_witness :
    3 ≤ (splitWs ("this is good .".toList)).length ∧
    calculate_lm_score ("this is good .".toList) =
      lm_score_spec ("this is good .".toList) :=
  ⟨by with_unfolding_all decide,
   C8_lm_score_formula ("this is good .".toList) (by with_unfolding_all decide)⟩

/-- C8 counterexample: the one-word transcript "good" takes the
short-text branch (0.3), while the claimed formula gives 0.5 + 0.1 = 0.6. -/
theorem C8_counterexample :
    calculate_lm_score ("good".toList) = 3/10 ∧
    lm_score_spec ("good".toList) = 6/10 ∧
    calculate_lm_score ("good".toList) ≠ lm_score_spec ("good".toList) := by
  refine ⟨?_, ?_, ?_⟩ <;> with_unfolding_all decide

/-! ## Claim C10 -/

/-- C10: fusing with any remote result (or none) leaves the feature
vectors carried by the returned `ScoreResult` and the breakdown equal to
the raw locally computed vectors. -/
theorem C10_features_unchanged (df : List (String × ℚ))
    (wf : Option (List Char → ℚ)) (lg : ℚ → ℚ) (text : List Char)
    (dur : ℚ) (task : String) (xr : Option XunfeiResult) :
    (speech_rater_score df wf lg text dur task xr).1.delivery_features = df ∧
    (speech_rater_score df wf lg text dur task xr).1.language_features =
      language_all_features wf lg text dur task ∧
    (speech_rater_score df wf lg text dur task xr).2.delivery_features = df ∧
    (speech_rater_score df wf lg text dur task xr).2.language_features =
      language_all_features wf lg text dur task :=
  ⟨rfl, rfl, rfl, rfl⟩

/-! ## Claim C2 -/

/-- Mean of an all-zero list is zero. -/
theorem listMean_zero {l : List ℚ} (h : ∀ x ∈ l, x = 0) : listMean l = 0 := by
  unfold listMean
  rw [List.sum_eq_zero h, zero_div]

/-- Every short-time energy of an all-zero signal is zero. -/
theorem frame_energies_silent (sr n : ℕ) :
    ∀ e ∈ frame_energies sr (List.replicate n (0:ℚ)), e = 0 := by
  intro e he
  simp only [frame_energies] at he
  by_cases h0 : vad_frame_length sr / 2 = 0
  · rw [if_pos h0] at he
    exact absurd he (List.not_mem_nil e)
  · rw [if_neg h0] at he
    obtain ⟨k, _, rfl⟩ := List.mem_map.mp he
    apply listMean_zero
    intro x hx
    obtain ⟨y, hy, rfl⟩ := List.mem_map.mp hx
    have hy0 : y = 0 :=
      List.eq_of_mem_replicate (List.mem_of_mem_drop (List.mem_of_mem_take hy))
    rw [hy0, mul_zero]

/-- With a zero threshold, the VAD loop never leaves the out-of-speech
state on all-zero energies. -/
theorem vad_foldl_silent (hop sr : ℕ) (l : List (ℕ × ℚ))
    (hl : ∀ p ∈ l, p.2 = (0:ℚ)) (s : ℚ) (segs : List (ℚ × ℚ)) :
    l.foldl (vadStep 0 hop sr) (false, s, segs) = (false, s, segs) := by
  induction l with
  | nil => rfl
  | cons p rest ih =>
    have hp : p.2 = 0 := hl p (List.mem_cons_self p rest)
    have hrest : ∀ q ∈ rest, q.2 = (0:ℚ) := fun q hq => hl q (List.mem_cons_of_mem _ hq)
    rw [List.foldl_cons, show vadStep 0 hop sr (false, s, segs) p = (false, s, segs) by
      simp [vadStep, hp]]
    exact ih hrest

/-- The segmenter returns no segment on an all-zero signal (the adaptive
threshold is zero and no energy exceeds it). -/
theorem detect_speech_segments_silent (sr n : ℕ) :
    detect_speech_segments sr (List.replicate n (0:ℚ)) = [] := by
  simp only [detect_speech_segments]
  by_cases he : frame_energies sr (List.replicate n (0:ℚ)) = []
  · rw [if_pos he]
  · rw [if_neg he]
    have hmean : listMean (frame_energies sr (List.replicate n (0:ℚ))) = 0 :=
      listMean_zero (frame_energies_silent sr n)
    have henum : ∀ p ∈ (frame_energies sr (List.replicate n (0:ℚ))).enum, p.2 = (0:ℚ) := by
      intro p hp
      exact frame_energies_silent sr n p.2 (List.snd_mem_of_mem_enumFrom hp)
    rw [hmean, zero_mul, vad_foldl_silent _ _ _ henum]
    rfl

/-- The pause deriver returns no pauses at all on an all-zero signal
(early return on the empty segmentation). -/
theorem detect_silences_silent (sr n : ℕ) :
    detect_silences sr (List.replicate n (0:ℚ)) = ([], []) := by
  simp [detect_silences, detect_speech_segments_silent]

/-- C2 (amended): for every silent (all-zero) signal, the segmenter
returns the empty segment sequence and `detect_silences` returns no
pauses at all — `([], [])`, not a single long pause of the full duration. -/
theorem C2_silent_audio (sr n : ℕ) (hhop : vad_frame_length sr / 2 ≠ 0) :
    detect_speech_segments sr (List.replicate n (0:ℚ)) = [] ∧
    detect_silences sr (List.replicate n (0:ℚ)) = ([], []) :=
  ⟨detect_speech_segments_silent sr n, detect_silences_silent sr n⟩

/-- C2 witness: one second of silence at the configured 16 kHz rate. -/
theorem C2_silent_audio_witness :
    vad_frame_length 16000 / 2 ≠ 0 ∧
    detect_speech_segments 16000 (List.replicate 16000 (0:ℚ)) = [] ∧
    detect_silences 16000 (List.replicate 16000 (0:ℚ)) = ([], []) :=
  ⟨by decide, (C2_silent_audio 16000 16000 (by decide)).1,
   (C2_silent_audio 16000 16000 (by decide)).2⟩

/-- C2 counterexample: a 1-second silent signal (duration ≥ the long-pause
threshold) yields `([], [])` from `detect_silences`, not the claimed
single long pause `[1]` of the full duration. -/
theorem C2_counterexample :
    detect_speech_segments 100 C2_audio = [] ∧
    detect_silences 100 C2_audio = ([], []) ∧
    detect_silences 100 C2_audio ≠ ([], [1]) := by
  have h2 : detect_silences 100 C2_audio = ([], []) := detect_silences_silent 100 100
  exact ⟨detect_speech_segments_silent 100 100, h2, by rw [h2]; simp⟩

/-! ## Claim C7 -/

/-- The gap-accumulation loop of `detect_silences` collects exactly the
positive spec-side gaps and ends at the last segment's end time. -/
theorem silence_foldl (segs : List (ℚ × ℚ)) (acc : List ℚ) (prev : ℚ) :
    segs.foldl silenceStep (acc, prev) =
      (acc ++ (gaps_between prev segs).filter (fun s => decide ((0:ℚ) < s)),
       last_end prev segs) := by
  induction segs generalizing acc prev with
  | nil => simp [gaps_between, last_end]
  | cons seg rest ih =>
    obtain ⟨s, e⟩ := seg
    have hstep : silenceStep (acc, prev) (s, e) =
        (if s > prev then acc ++ [s - prev] else acc, e) := rfl
    rw [List.foldl_cons, hstep]
    simp only [gaps_between, last_end]
    by_cases hs : s > prev
    · rw [if_pos hs, ih]
      have hd : decide ((0:ℚ) < s - prev) = true := by simp [sub_pos, hs]
      simp only [List.filter_cons, hd, List.append_assoc, if_true]
      simp
    · rw [if_neg hs, ih]
      have hd : decide ((0:ℚ) < s - prev) = false := by
        simp only [decide_eq_false_iff_not, not_lt, sub_nonpos]
        exact not_lt.mp hs
      simp only [List.filter_cons, hd, if_false]
      simp

/-- A one-element list whose element fails the predicate filters to
nothing. -/
theorem filter_singleton_of_false (p : ℚ → Bool) (x : ℚ) (hx : p x = false) :
    List.filter p [x] = [] := by
  simp [List.filter_cons, hx]

/-- Filtering by a predicate that entails positivity absorbs a previous
positivity filter. -/
theorem filter_of_filter_pos {p : ℚ → Bool} (hp : ∀ a : ℚ, p a = true → (0:ℚ) < a)
    (g : List ℚ) :
    (g.filter (fun s => decide ((0:ℚ) < s))).filter p = g.filter p := by
  rw [List.filter_comm]
  have : ∀ a ∈ g.filter p, (fun s => decide ((0:ℚ) < s)) a = true := by
    intro a ha
    exact decide_eq_true (hp a (List.of_mem_filter ha))
  exact List.filter_eq_self.mpr this

/-- C7: with at least one detected segment, the pause set equals the
spec-side gap list (pre-first, inter-segment, post-last) classified by the
0.15 s / 0.5 s thresholds; sub-threshold gaps are silently discarded. -/
theorem C7_pause_classification (sr : ℕ) (audio : List ℚ)
    (h : detect_speech_segments sr audio ≠ []) :
    detect_silences sr audio =
      ((spec_pause_gaps (detect_speech_segments sr audio)
          ((audio.length : ℚ) / (sr : ℚ))).filter
          (fun s => decide (short_pause_threshold ≤ s ∧ s < long_pause_threshold)),
       (spec_pause_gaps (detect_speech_segments sr audio)
          ((audio.length : ℚ) / (sr : ℚ))).filter
          (fun s => decide (long_pause_threshold ≤ s))) := by
  have hshort : ∀ a : ℚ,
      (fun s => decide (short_pause_threshold ≤ s ∧ s < long_pause_threshold)) a = true →
      (0:ℚ) < a := by
    intro a ha
    simp only [decide_eq_true_eq] at ha
    have : short_pause_threshold ≤ a := ha.1
    unfold short_pause_threshold at this
    linarith
  have hlong : ∀ a : ℚ, (fun s => decide (long_pause_threshold ≤ s)) a = true →
      (0:ℚ) < a := by
    intro a ha
    simp only [decide_eq_true_eq] at ha
    unfold long_pause_threshold at ha
    linarith
  simp only [detect_silences, if_neg h, silence_foldl, spec_pause_gaps, List.nil_append]
  by_cases hlt : last_end 0 (detect_speech_segments sr audio) <
      (audio.length : ℚ) / (sr : ℚ)
  · rw [if_pos hlt]
    simp only [List.filter_append, filter_of_filter_pos hshort,
      filter_of_filter_pos hlong]
  · rw [if_neg hlt]
    have hx : (audio.length : ℚ) / (sr : ℚ) -
        last_end 0 (detect_speech_segments sr audio) ≤ 0 := by
      linarith [not_lt.mp hlt]
    have pa1 : (fun s => decide (short_pause_threshold ≤ s ∧ s < long_pause_threshold))
        ((audio.length : ℚ) / (sr : ℚ) -
          last_end 0 (detect_speech_segments sr audio)) = false := by
      simp only [decide_eq_false_iff_not]
      rintro ⟨hc, -⟩
      rw [show short_pause_threshold = 15/100 from rfl] at hc
      linarith
    have pa2 : (fun s => decide (long_pause_threshold ≤ s))
        ((audio.length : ℚ) / (sr : ℚ) -
          last_end 0 (detect_speech_segments sr audio)) = false := by
      simp only [decide_eq_false_iff_not]
      intro hc
      rw [show long_pause_threshold = 1/2 from rfl] at hc
      linarith
    have hf1 := filter_singleton_of_false
      (fun s => decide (short_pause_threshold ≤ s ∧ s < long_pause_threshold))
      ((audio.length : ℚ) / (sr : ℚ) - last_end 0 (detect_speech_segments sr audio)) pa1
    have hf2 := filter_singleton_of_false
      (fun s => decide (long_pause_threshold ≤ s))
      ((audio.length : ℚ) / (sr : ℚ) - last_end 0 (detect_speech_segments sr audio)) pa2
    simp only [List.filter_append, filter_of_filter_pos hshort,
      filter_of_filter_pos hlong, hf1, hf2, List.append_nil]

/-- C7 witness: half a second of signal then half a second of silence at a
100 Hz rate — one segment, and the single post-segment gap of 0.5 s is a
long pause. -/
theorem C7_pause_classification_witness :
    detect_speech_segments 100 C7_audio ≠ [] ∧
    detect_silences 100 C7_audio =
      ((spec_pause_gaps (detect_speech_segments 100 C7_audio)
          ((C7_audio.length : ℚ) / (100 : ℚ))).filter
          (fun s => decide (short_pause_threshold ≤ s ∧ s < long_pause_threshold)),
       (spec_pause_gaps (detect_speech_segments 100 C7_audio)
          ((C7_audio.length : ℚ) / (100 : ℚ))).filter
          (fun s => decide (long_pause_threshold ≤ s))) :=
  ⟨by with_unfolding_all decide,
   C7_pause_classification 100 C7_audio (by with_unfolding_all decide)⟩

/-! ## Claim C9 -/

/-- The sender loop always ends with the terminal stream-status-2 message
carrying the empty chunk. -/
theorem send_frames_ends_terminal (data : List ℕ) (status : ℕ) :
    ∃ l, send_frames data status = l ++ [{ status := 2, data := [] }] := by
  by_cases h : data = []
  · exact ⟨[], by rw [send_frames, dif_pos h]; rfl⟩
  · obtain ⟨l, hl⟩ := send_frames_ends_terminal (data.drop frameSize) 1
    by_cases hs : status = 0
    · exact ⟨{ status := 0, data := data.take frameSize } :: l,
        by rw [send_frames, dif_neg h, if_pos hs, hl]; rfl⟩
    · exact ⟨{ status := 1, data := data.take frameSize } :: l,
        by rw [send_frames, dif_neg h, if_neg hs, hl]; rfl⟩
termination_by data.length
decreasing_by
  all_goals
    simp only [List.length_drop]
    exact Nat.sub_lt (List.length_pos.mpr h) (by norm_num [frameSize])

/-- C9: for every source (WAV-framed or raw, including an empty one), the
on-open sender's last message is the terminal one with stream-status 2. -/
theorem C9_terminal_frame (is_wav : Bool) (file : List ℕ) :
    (on_open_frames is_wav file).getLast? = some { status := 2, data := [] } ∧
    ((on_open_frames is_wav file).map Frame.status).getLast? = some 2 := by
  obtain ⟨l, hl⟩ := send_frames_ends_terminal (if is_wav then file.drop 44 else file) 0
  rw [on_open_frames, hl]
  constructor
  · exact List.getLast?_concat l
  · rw [List.map_append]
    exact List.getLast?_concat _

end OralAssistant
